import Mathlib

/-!
Shallow embedding of the `deep-copytrader` repository's order-ingestion and
deduplication pipeline.

Sources embedded:
- `src/src/enhanced-copytrader.js` (class `EnhancedCopyTrader`)
- `src/server.js` (class `CopyTrader`, `PolymarketAPI`, `updateWalletStats`)
- `src/unnamed/part_001` (class `PolymarketAPI`: `getWalletOrders`,
  `parseOrders`, `extractMarketFromToken`)
- `src/unnamed/part_000` (`config`, including `tokenToMarketMap`)

Modelling conventions:
- JS `Map` is an association list with unique keys (every state reachable
  through the API keeps keys unique); `Map.get/set/delete` become
  `mapGet/mapSet/mapDelete` below.  `Map.set` on an existing key replaces the
  entry in place, which `mapSet` mirrors by replacing the first occurrence.
- JS numbers that carry prices/sizes/P&L are modelled as `Rat`; timestamps
  (`Date.now()`, `new Date()`) are modelled as a `Nat` clock carried in the
  state (`now`), held constant during a single operation.
- `String.prototype.toLowerCase` is modelled by `jsToLowerCase`, a
  character-wise ASCII lowering (the wallet addresses involved are ASCII hex
  strings); JS `substring(0, 8)` is modelled by taking the first 8
  characters.
- A JS exception (`TypeError` from calling a method that does not exist on
  the class) is modelled by returning the state at the throw point together
  with `some err`; mutations performed before the throw persist, exactly as
  in JS.
- `console.log` calls are pure no-ops and are omitted.
-/

/-- JS runtime errors that the embedded code can raise. -/
inductive JsError where
  | typeError (msg : String)
deriving DecidableEq

/-- A normalized order, as produced by `PolymarketAPI.parseOrders`
(`src/unnamed/part_001` lines 33-47).  The `rawData` field (a debugging copy
of the raw payload) is omitted. -/
structure Order where
  id : String
  trader : String
  token : String
  price : Rat
  size : Rat
  side : String
  status : String
  market : String
  createdAt : Nat
  filledAmount : Rat
deriving DecidableEq

/-- A raw order payload as it arrives from the venue (JSON object before
normalization).  `price`/`size`/`filled` are kept as the numeric values that
JS `parseFloat` extracts from the wire strings; `filled` is `none` when the
field is absent (JS `order.filled || 0`). -/
structure RawOrder where
  id : String
  trader : String
  token : String
  price : Rat
  size : Rat
  side : String
  status : String
  createdAt : Nat
  filled : Option Rat
deriving DecidableEq

/-- JS `String.prototype.toLowerCase`, modelled as character-wise ASCII
lowering (all addresses handled by the program are ASCII hex strings). -/
def jsToLowerCase (s : String) : String :=
  String.mk (s.data.map Char.toLower)

/-- `config.tokenToMarketMap` from `src/unnamed/part_000`. -/
def tokenToMarketMap : String → Option String
  | "0x...token1" => some "US Election 2024 - Winner"
  | "0x...token2" => some "BTC Price 2025"
  | _ => none

/-- `PolymarketAPI.extractMarketFromToken` (`src/unnamed/part_001` lines
50-53): static lookup with a truncated-identifier fallback. -/
def extractMarketFromToken (tokenId : String) : String :=
  match tokenToMarketMap tokenId with
  | some m => m
  | none => "Market: " ++ String.mk (tokenId.data.take 8) ++ "..."

/-- Normalization of a single raw order, the body of the `map` in
`PolymarketAPI.parseOrders` (`src/unnamed/part_001` lines 34-46). -/
def parseOrder (o : RawOrder) : Order :=
  { id := o.id
    trader := o.trader
    token := o.token
    price := o.price
    size := o.size
    side := o.side
    status := o.status
    market := extractMarketFromToken o.token
    createdAt := o.createdAt
    filledAmount := o.filled.getD 0 }

/-- `PolymarketAPI.parseOrders` (`src/unnamed/part_001` lines 33-47). -/
def parseOrders (orders : List RawOrder) : List Order :=
  orders.map parseOrder

/-- Outcome of the HTTP fetch inside `PolymarketAPI.getWalletOrders`: either
the transport layer failed (network error, rejected promise), or a response
arrived with an ok/not-ok status and a (parsed JSON) body. -/
inductive FetchOutcome where
  | transportError
  | response (ok : Bool) (body : List RawOrder)
deriving DecidableEq

/-- `PolymarketAPI.getWalletOrders` (`src/unnamed/part_001` lines 14-30):
the whole body sits in a `try`; a non-ok status throws, and the `catch`
returns `[]`, so every failure path yields the empty list and the function
never propagates an error (its return type carries no error case). -/
def getWalletOrders (outcome : FetchOutcome) : List Order :=
  match outcome with
  | .transportError => []
  | .response ok body => if ok then parseOrders body else []

/-- A Trade record as built by `EnhancedCopyTrader.createTradeRecord`
(`src/src/enhanced-copytrader.js` lines 135-152).  `updatedAt` is absent at
creation and only set by `updateOrderStatus`, so it is an `Option`. -/
structure Trade where
  id : String
  wallet : String
  nickname : String
  market : String
  side : String
  size : Rat
  price : Rat
  status : String
  token : String
  createdAt : Nat
  detectedAt : Nat
  testMode : Bool
  pnl : Rat
  outcome : String
  updatedAt : Option Nat
deriving DecidableEq

/-- A watch record, as built by `EnhancedCopyTrader.addWallet`
(`src/src/enhanced-copytrader.js` lines 23-29). -/
structure WalletData where
  nickname : String
  address : String
  active : Bool
  lastChecked : Nat
  trades : List Trade
deriving DecidableEq

/-- The `this.stats` counters (`src/src/enhanced-copytrader.js` lines 13-18). -/
structure Stats where
  totalTrades : Int
  profitableTrades : Int
  totalPnl : Rat
  activeTrades : Int
deriving DecidableEq

/-- The mutable state of an `EnhancedCopyTrader` instance.  `now` models the
wall clock read by `Date.now()` / `new Date()`. -/
structure CTState where
  copiedWallets : List (String × WalletData)
  tradeHistory : List Trade
  isMonitoring : Bool
  testMode : Bool
  stats : Stats
  now : Nat
deriving DecidableEq

/-- JS `Map.prototype.get`. -/
def mapGet (k : String) : List (String × WalletData) → Option WalletData
  | [] => none
  | (k', v) :: rest => if k' = k then some v else mapGet k rest

/-- JS `Map.prototype.set`: replace in place when the key exists (keys are
unique in every reachable state, so replacing the first occurrence is the
map behaviour), append otherwise. -/
def mapSet (k : String) (v : WalletData) : List (String × WalletData) → List (String × WalletData)
  | [] => [(k, v)]
  | (k', v') :: rest => if k' = k then (k, v) :: rest else (k', v') :: mapSet k v rest

/-- JS `Map.prototype.delete`. -/
def mapDelete (k : String) (m : List (String × WalletData)) : List (String × WalletData) :=
  m.filter (fun p => ¬ (p.1 = k))

/-- `EnhancedCopyTrader.createTradeRecord` (`src/src/enhanced-copytrader.js`
lines 135-152).  JS `...?.nickname || 'Unknown'` makes an empty-string
nickname fall back to `"Unknown"` too. -/
def createTradeRecord (s : CTState) (order : Order) : Trade :=
  { id := order.id
    wallet := order.trader
    nickname :=
      match mapGet (jsToLowerCase order.trader) s.copiedWallets with
      | some w => if w.nickname = "" then "Unknown" else w.nickname
      | none => "Unknown"
    market := order.market
    side := order.side
    size := order.size
    price := order.price
    status := order.status
    token := order.token
    createdAt := order.createdAt
    detectedAt := s.now
    testMode := s.testMode
    pnl := 0
    outcome := "PENDING"
    updatedAt := none }

/-- `EnhancedCopyTrader.processOrder` (`src/src/enhanced-copytrader.js`
lines 97-132).  Two calls in its body name methods that do not exist on the
class and therefore raise a `TypeError` when reached:
`this.updateTrade(existingTrade, order)` (line 130, the duplicate-order
branch, reached before any mutation) and `this.executeCopyTrade(trade)`
(line 126, the new-order branch when `testMode` is false, reached after all
mutations). -/
def processOrder (s : CTState) (order : Order) : CTState × Option JsError :=
  match mapGet (jsToLowerCase order.trader) s.copiedWallets with
  | none => (s, none)
  | some wallet =>
    match wallet.trades.find? (fun t => t.id = order.id) with
    | some _ =>
      (s, some (.typeError "this.updateTrade is not a function"))
    | none =>
      let trade := createTradeRecord s order
      let wallet' := { wallet with trades := wallet.trades ++ [trade] }
      let s' : CTState :=
        { s with
          copiedWallets := mapSet (jsToLowerCase order.trader) wallet' s.copiedWallets
          tradeHistory := s.tradeHistory ++ [trade]
          stats :=
            { s.stats with
              totalTrades := s.stats.totalTrades + 1
              activeTrades :=
                if order.status = "OPEN" then s.stats.activeTrades + 1
                else s.stats.activeTrades } }
      (s', if s.testMode then none
           else some (.typeError "this.executeCopyTrade is not a function"))

/-- Update the first trade whose `id` matches, as JS `trades.find(...)`
followed by mutation of the returned object does. -/
def updateFirst (orderId : String) (f : Trade → Trade) : List Trade → List Trade
  | [] => []
  | t :: ts => if t.id = orderId then f t :: ts else t :: updateFirst orderId f ts

/-- `EnhancedCopyTrader.updateOrderStatus` (`src/src/enhanced-copytrader.js`
lines 168-184): scans wallets in map order for the first one holding a trade
with the given id, mutates that trade's `status`/`updatedAt`, decrements
`stats.activeTrades` when the new status is `FILLED`, then calls
`this.updateDashboard()` — a method that does not exist on the class — so a
`TypeError` is raised after those mutations. -/
def updateOrderStatus (s : CTState) (orderId status : String) : CTState × Option JsError :=
  match s.copiedWallets.find? (fun p => p.2.trades.any (fun t => t.id = orderId)) with
  | none => (s, none)
  | some (addr, wallet) =>
    let wallet' :=
      { wallet with
        trades := updateFirst orderId
          (fun t => { t with status := status, updatedAt := some s.now }) wallet.trades }
    let s' : CTState :=
      { s with
        copiedWallets := mapSet addr wallet' s.copiedWallets
        stats :=
          if status = "FILLED" then
            { s.stats with activeTrades := s.stats.activeTrades - 1 }
          else s.stats }
    (s', some (.typeError "this.updateDashboard is not a function"))

/-- A push-channel message envelope: the decoded JSON carries a `type` tag
plus the order payload fields (for `order_filled` / `order_cancelled` only
the `id` field is read). -/
structure WSMessage where
  type : String
  data : RawOrder
deriving DecidableEq

/-- `EnhancedCopyTrader.handleWebSocketMessage` (`src/src/enhanced-copytrader.js`
lines 155-165).  For `order_created`/`order_updated` it normalizes the
payload (`parseOrders([data])[0]`) and funnels it into `processOrder`; the
wallet `active` flag is never consulted on this path. -/
def handleWebSocketMessage (s : CTState) (msg : WSMessage) : CTState × Option JsError :=
  if msg.type = "order_created" ∨ msg.type = "order_updated" then
    processOrder s (parseOrder msg.data)
  else if msg.type = "order_filled" then
    updateOrderStatus s msg.data.id "FILLED"
  else if msg.type = "order_cancelled" then
    updateOrderStatus s msg.data.id "CANCELLED"
  else (s, none)

/-- `orders.forEach(order => this.processOrder(order))` inside
`EnhancedCopyTrader.pollWalletOrders` (lines 89-91); an exception thrown by
the callback aborts the iteration and propagates. -/
def processOrdersList (s : CTState) : List Order → CTState × Option JsError
  | [] => (s, none)
  | o :: os =>
    match processOrder s o with
    | (s', none) => processOrdersList s' os
    | (s', some e) => (s', some e)

/-- `EnhancedCopyTrader.pollWalletOrders` (`src/src/enhanced-copytrader.js`
lines 86-94), with the network fetch outcome supplied as a parameter. -/
def pollWalletOrders (s : CTState) (outcome : FetchOutcome) : CTState × Option JsError :=
  processOrdersList s (getWalletOrders outcome)

/-- `EnhancedCopyTrader.addWallet` (`src/src/enhanced-copytrader.js` lines
22-43): build a fresh watch record (active, empty trade list), `Map.set` it
under the lowercased address, then immediately poll for existing orders
(whose fetch outcome is the `outcome` parameter) and mark monitoring as
started.  The timers installed by `startMonitoring` are outside the state
model; only the `isMonitoring` flag is tracked. -/
def addWallet (s : CTState) (walletAddress nickname : String) (outcome : FetchOutcome) :
    CTState × Option JsError :=
  let walletData : WalletData :=
    { nickname := nickname
      address := (jsToLowerCase walletAddress)
      active := true
      lastChecked := s.now
      trades := [] }
  let s1 := { s with copiedWallets := mapSet (jsToLowerCase walletAddress) walletData s.copiedWallets }
  let r := pollWalletOrders s1 outcome
  ({ r.1 with isMonitoring := true }, r.2)

/-- The addresses polled by one sweep of the interval body installed by
`EnhancedCopyTrader.startPolling` (`src/src/enhanced-copytrader.js` lines
59-67): every map entry whose `active` flag is set. -/
def polledAddresses (s : CTState) : List String :=
  (s.copiedWallets.filter (fun p => p.2.active)).map (fun p => p.1)

/-- `EnhancedCopyTrader.removeWallet` (`src/src/enhanced-copytrader.js`
lines 225-228): a single `Map.delete` of the lowercased address. -/
def removeWallet (s : CTState) (walletAddress : String) : CTState :=
  { s with copiedWallets := mapDelete (jsToLowerCase walletAddress) s.copiedWallets }

/-- `EnhancedCopyTrader.setWalletActive` (`src/src/enhanced-copytrader.js`
lines 231-237): look up the lowercased address and flip only the `active`
field; no-op when the wallet is unknown. -/
def setWalletActive (s : CTState) (walletAddress : String) (active : Bool) : CTState :=
  match mapGet (jsToLowerCase walletAddress) s.copiedWallets with
  | none => s
  | some wallet =>
    { s with
      copiedWallets :=
        mapSet (jsToLowerCase walletAddress) { wallet with active := active } s.copiedWallets }

/-- JS `Number.prototype.toFixed(1)` viewed as a rounding on rationals
(round half toward positive infinity, as the ES spec's "pick the larger n"
prescribes); the string/number distinction of the JS value is dropped. -/
def jsToFixed1 (x : Rat) : Rat := (round (x * 10) : Int) / 10

/-- JS `Number.prototype.toFixed(2)` viewed as a rounding on rationals. -/
def jsToFixed2 (x : Rat) : Rat := (round (x * 100) : Int) / 100

/-- One per-wallet row of the dashboard payload
(`EnhancedCopyTrader.getDashboardData`, lines 204-213). -/
structure WalletView where
  nickname : String
  address : String
  active : Bool
  trades : Nat
  profitable : Nat
  successRate : Rat
  pnl : Rat
deriving DecidableEq

/-- The mapping applied to each wallet inside
`EnhancedCopyTrader.getDashboardData` (`src/src/enhanced-copytrader.js`
lines 204-213).  The success rate divides only under the
`wallet.trades.length > 0` guard and is the number `0` otherwise. -/
def walletView (wallet : WalletData) : WalletView :=
  { nickname := wallet.nickname
    address := wallet.address
    active := wallet.active
    trades := wallet.trades.length
    profitable := (wallet.trades.filter (fun t => t.pnl > 0)).length
    successRate :=
      if wallet.trades.length > 0 then
        jsToFixed1 (((wallet.trades.filter (fun t => t.pnl > 0)).length : Rat)
          / (wallet.trades.length : Rat) * 100)
      else 0
    pnl := jsToFixed2 (wallet.trades.foldl (fun sum t => sum + t.pnl) 0) }

/-- The full dashboard payload of `EnhancedCopyTrader.getDashboardData`
(`src/src/enhanced-copytrader.js` lines 203-222). -/
structure DashboardData where
  wallets : List WalletView
  stats : Stats
  totalWallets : Nat
  testMode : Bool
  lastUpdated : Nat
deriving DecidableEq

/-- `EnhancedCopyTrader.getDashboardData` (`src/src/enhanced-copytrader.js`
lines 203-222): a pure read of the registry. -/
def getDashboardData (s : CTState) : DashboardData :=
  { wallets := s.copiedWallets.map (fun p => walletView p.2)
    stats := s.stats
    totalWallets := s.copiedWallets.length
    testMode := s.testMode
    lastUpdated := s.now }

/-- Number of trades in a list carrying a given order identifier. -/
def countId (trades : List Trade) (orderId : String) : Nat :=
  (trades.filter (fun t => t.id = orderId)).length

/-! ### Association-list lemmas for the wallet map -/

theorem mapGet_mapSet (k k' : String) (v : WalletData) (m : List (String × WalletData)) :
    mapGet k' (mapSet k v m) = if k = k' then some v else mapGet k' m := by
  induction m with
  | nil => simp [mapSet, mapGet]
  | cons p rest ih =>
    obtain ⟨k₀, v₀⟩ := p
    by_cases h0 : k₀ = k
    · subst h0
      by_cases h : k₀ = k'
      · subst h
        simp [mapSet, mapGet]
      · simp [mapSet, mapGet, h]
    · by_cases h1 : k₀ = k'
      · subst h1
        have hk : ¬ k = k₀ := fun h => h0 h.symm
        simp [mapSet, mapGet, h0, hk]
      · simp [mapSet, mapGet, h0, h1, ih]

theorem mapGet_mapSet_self (k : String) (v : WalletData) (m : List (String × WalletData)) :
    mapGet k (mapSet k v m) = some v := by
  simp [mapGet_mapSet]

theorem mapGet_mapSet_ne (k k' : String) (v : WalletData) (m : List (String × WalletData))
    (h : k ≠ k') : mapGet k' (mapSet k v m) = mapGet k' m := by
  simp [mapGet_mapSet, h]

theorem mapGet_mapDelete_self (k : String) (m : List (String × WalletData)) :
    mapGet k (mapDelete k m) = none := by
  induction m with
  | nil => rfl
  | cons p rest ih =>
    obtain ⟨k₀, v₀⟩ := p
    by_cases h : k₀ = k
    · subst h
      simpa [mapDelete] using ih
    · simpa [mapDelete, mapGet, h] using ih

theorem mapGet_mapDelete_ne (k k' : String) (m : List (String × WalletData))
    (h : k ≠ k') : mapGet k' (mapDelete k m) = mapGet k' m := by
  induction m with
  | nil => rfl
  | cons p rest ih =>
    obtain ⟨k₀, v₀⟩ := p
    by_cases h0 : k₀ = k
    · subst h0
      have hne : ¬ k₀ = k' := h
      simp [mapDelete, mapGet, hne] at ih ⊢
      exact ih
    · by_cases h1 : k₀ = k'
      · subst h1
        simp [mapDelete, mapGet, h0]
      · simp [mapDelete, mapGet, h0, h1] at ih ⊢
        exact ih

theorem mapSet_self (k : String) (v : WalletData) (m : List (String × WalletData))
    (h : mapGet k m = some v) : mapSet k v m = m := by
  induction m with
  | nil => simp [mapGet] at h
  | cons p rest ih =>
    obtain ⟨k₀, v₀⟩ := p
    by_cases h0 : k₀ = k
    · subst h0
      simp [mapGet] at h
      simp [mapSet, h]
    · simp [mapGet, h0] at h
      simp [mapSet, h0, ih h]

theorem mapSet_mapSet_self (k : String) (v₁ v₂ : WalletData)
    (m : List (String × WalletData)) :
    mapSet k v₂ (mapSet k v₁ m) = mapSet k v₂ m := by
  induction m with
  | nil => simp [mapSet]
  | cons p rest ih =>
    obtain ⟨k₀, v₀⟩ := p
    by_cases h0 : k₀ = k <;> simp [mapSet, h0, ih]

theorem mapGet_isSome_mapSet (k k' : String) (v : WalletData)
    (m : List (String × WalletData)) (h : (mapGet k' m).isSome) :
    (mapGet k' (mapSet k v m)).isSome := by
  rw [mapGet_mapSet]
  by_cases hk : k = k' <;> simp [hk, h]

/-! ### Counting and scanning lemmas for trade lists -/

theorem countId_eq_zero_iff (trades : List Trade) (i : String) :
    countId trades i = 0 ↔ trades.find? (fun t => t.id = i) = none := by
  induction trades with
  | nil => simp [countId]
  | cons t ts ih =>
    by_cases h : t.id = i <;> simp [countId, List.find?_cons, h]

theorem countId_append_single (trades : List Trade) (t : Trade) (i : String) :
    countId (trades ++ [t]) i = countId trades i + (if t.id = i then 1 else 0) := by
  by_cases h : t.id = i <;> simp [countId, List.filter_append, h]

/-! ### Example states used by witnesses -/

/-- All-zero statistics block, as set by the constructor. -/
def exStats : Stats :=
  { totalTrades := 0, profitableTrades := 0, totalPnl := 0, activeTrades := 0 }

/-- A fresh trader state (constructor result, `testMode` from `config`). -/
def sEmpty : CTState :=
  { copiedWallets := [], tradeHistory := [], isMonitoring := false, testMode := true
    stats := exStats, now := 0 }

/-- The watch record created for wallet `0xAbC` with nickname `X`. -/
def wEmpty : WalletData :=
  { nickname := "X", address := "0xabc", active := true, lastChecked := 0, trades := [] }

/-- A state watching one wallet that has no trades yet. -/
def sOne : CTState :=
  { copiedWallets := [("0xabc", wEmpty)], tradeHistory := [], isMonitoring := true
    testMode := true, stats := exStats, now := 5 }

/-- The order of the spec's §8 scenario: `{id:"1", status:"OPEN", side:"BUY",
size:10, price:0.5}` for trader `0xAbC`. -/
def exOrder : Order :=
  { id := "1", trader := "0xAbC", token := "0xtok", price := mkRat 1 2, size := 10
    side := "BUY", status := "OPEN", market := "Market: 0xtok...", createdAt := 0
    filledAmount := 0 }

/-- The raw payload whose normalization is `exOrder`. -/
def exRaw : RawOrder :=
  { id := "1", trader := "0xAbC", token := "0xtok", price := mkRat 1 2, size := 10
    side := "BUY", status := "OPEN", createdAt := 0, filled := none }

/-- The Trade record created from `exOrder` in state `sOne`. -/
def tradeOpen : Trade :=
  { id := "1", wallet := "0xAbC", nickname := "X", market := "Market: 0xtok..."
    side := "BUY", size := 10, price := mkRat 1 2, status := "OPEN", token := "0xtok"
    createdAt := 0, detectedAt := 5, testMode := true, pnl := 0, outcome := "PENDING"
    updatedAt := none }

/-- The watch record after the first poll delivered `exOrder`. -/
def wWithOpenTrade : WalletData :=
  { nickname := "X", address := "0xabc", active := true, lastChecked := 0
    trades := [tradeOpen] }

/-- The state after the first poll of the spec's §8 scenario: one trade,
one active trade. -/
def sAfterFirstPoll : CTState :=
  { copiedWallets := [("0xabc", wWithOpenTrade)], tradeHistory := [tradeOpen]
    isMonitoring := true, testMode := true
    stats := { totalTrades := 1, profitableTrades := 0, totalPnl := 0, activeTrades := 1 }
    now := 6 }

/-- The same order re-delivered with `status:"FILLED"`, raw form. -/
def exRawFilled : RawOrder :=
  { id := "1", trader := "0xAbC", token := "0xtok", price := mkRat 1 2, size := 10
    side := "BUY", status := "FILLED", createdAt := 0, filled := some 10 }

/-! ### Claim theorems -/

/-- C6: for every wallet address, `getWalletOrders` returns the empty order
sequence on a transport error and on a non-success HTTP status, never
propagating the error (its return type has no error case); the failure
results coincide with the result for a wallet that has no orders, so a
caller cannot tell them apart. -/
theorem getWalletOrders_swallows_errors (body : List RawOrder) :
    getWalletOrders FetchOutcome.transportError = []
      ∧ getWalletOrders (FetchOutcome.response false body) = []
      ∧ getWalletOrders (FetchOutcome.response false body)
          = getWalletOrders (FetchOutcome.response true []) := by
  refine ⟨rfl, ?_, ?_⟩ <;> simp [getWalletOrders, parseOrders]

/-- C5: an Order whose normalized trader address has no watch record is
discarded: `processOrder` returns with no error and the state — registry,
trade history and statistics alike — is unchanged; in particular this holds
after the wallet was removed, so the late event does not resurrect it. -/
theorem processOrder_unknown_wallet_discards (s : CTState) (o : Order) (addr : String)
    (h : mapGet (jsToLowerCase o.trader) s.copiedWallets = none)
    (hrm : (jsToLowerCase addr) = (jsToLowerCase o.trader)) :
    processOrder s o = (s, none)
      ∧ processOrder (removeWallet s addr) o = (removeWallet s addr, none) := by
  constructor
  · simp [processOrder, h]
  · have hnone : mapGet (jsToLowerCase o.trader) (removeWallet s addr).copiedWallets = none := by
      rw [removeWallet, ← hrm]
      exact mapGet_mapDelete_self (jsToLowerCase addr) s.copiedWallets
    simp [processOrder, hnone]

/-- Witness for C5 at a concrete input: no wallet is registered for the
order's trader (here because `0xABC` was just removed). -/
theorem processOrder_unknown_wallet_discards_witness :
    processOrder sEmpty exOrder = (sEmpty, none)
      ∧ processOrder (removeWallet sEmpty "0xABC") exOrder
          = (removeWallet sEmpty "0xABC", none) :=
  processOrder_unknown_wallet_discards sEmpty exOrder "0xABC" (by decide) (by decide)

/-- C4: every dashboard row derived from a wallet whose trade list is empty
reports a success rate of exactly `0`: the profitable/total division sits
under the `trades.length > 0` guard and is never reached for such a wallet. -/
theorem dashboard_successRate_zero_trades (s : CTState) (v : WalletView)
    (hv : v ∈ (getDashboardData s).wallets) (h0 : v.trades = 0) :
    v.successRate = 0 := by
  simp only [getDashboardData, List.mem_map] at hv
  obtain ⟨p, _, rfl⟩ := hv
  simp only [walletView] at h0 ⊢
  simp [h0]

/-- Witness for C4 at a concrete input: the single registered wallet of
`sOne` has no trades and its dashboard row has success rate `0`. -/
theorem dashboard_successRate_zero_trades_witness :
    (walletView wEmpty).successRate = 0 :=
  dashboard_successRate_zero_trades sOne (walletView wEmpty) (by simp [getDashboardData, sOne])
    (by decide)

/-- C10: `removeWallet` deletes only the registry entry of the normalized
address: the global trade history, the statistics counters, the test-mode
flag and every other wallet's record are untouched, and the dashboard's
global stats block is the same before and after. -/
theorem removeWallet_frame (s : CTState) (addr k : String) (hk : k ≠ (jsToLowerCase addr)) :
    (removeWallet s addr).tradeHistory = s.tradeHistory
      ∧ (removeWallet s addr).stats = s.stats
      ∧ (removeWallet s addr).testMode = s.testMode
      ∧ mapGet (jsToLowerCase addr) (removeWallet s addr).copiedWallets = none
      ∧ mapGet k (removeWallet s addr).copiedWallets = mapGet k s.copiedWallets
      ∧ (getDashboardData (removeWallet s addr)).stats = (getDashboardData s).stats := by
  refine ⟨rfl, rfl, rfl, ?_, ?_, rfl⟩
  · exact mapGet_mapDelete_self (jsToLowerCase addr) s.copiedWallets
  · exact mapGet_mapDelete_ne (jsToLowerCase addr) k s.copiedWallets (fun h => hk h.symm)

/-- Witness for C10 at a concrete input: removing `0xAbC` from a state whose
wallet holds a recorded trade leaves history, stats and the other key's
lookup intact. -/
theorem removeWallet_frame_witness :
    (removeWallet sAfterFirstPoll "0xAbC").tradeHistory = sAfterFirstPoll.tradeHistory
      ∧ (removeWallet sAfterFirstPoll "0xAbC").stats = sAfterFirstPoll.stats
      ∧ (removeWallet sAfterFirstPoll "0xAbC").testMode = sAfterFirstPoll.testMode
      ∧ mapGet (jsToLowerCase "0xAbC") (removeWallet sAfterFirstPoll "0xAbC").copiedWallets = none
      ∧ mapGet "other" (removeWallet sAfterFirstPoll "0xAbC").copiedWallets
          = mapGet "other" sAfterFirstPoll.copiedWallets
      ∧ (getDashboardData (removeWallet sAfterFirstPoll "0xAbC")).stats
          = (getDashboardData sAfterFirstPoll).stats :=
  removeWallet_frame sAfterFirstPoll "0xAbC" "other" (by decide)

/-- C2 (code bug): re-delivering order `1` with `status:"FILLED"` via a
second poll does not update the stored trade — `processOrder` reaches the
duplicate branch and calls `this.updateTrade`, a method that does not exist
on `EnhancedCopyTrader`, so a `TypeError` is raised, the state (trade still
`OPEN`, one active trade) is unchanged, and the dashboard keeps showing one
active trade instead of zero. -/
theorem secondPoll_filled_raises_typeError :
    pollWalletOrders sAfterFirstPoll (FetchOutcome.response true [exRawFilled])
        = (sAfterFirstPoll, some (JsError.typeError "this.updateTrade is not a function"))
      ∧ (getDashboardData sAfterFirstPoll).stats.activeTrades = 1
      ∧ ((getDashboardData sAfterFirstPoll).wallets.map (fun v => v.trades)) = [1] := by
  refine ⟨by decide, by decide, by decide⟩

/-! ### Key-presence preservation through the ingestion pipeline -/

theorem processOrder_preserves_key (s : CTState) (o : Order) (k : String)
    (h : (mapGet k s.copiedWallets).isSome) :
    (mapGet k (processOrder s o).1.copiedWallets).isSome := by
  cases hw : mapGet (jsToLowerCase o.trader) s.copiedWallets with
  | none => simpa [processOrder, hw] using h
  | some wallet =>
    cases hf : wallet.trades.find? (fun t => t.id = o.id) with
    | some t => simpa [processOrder, hw, hf] using h
    | none =>
      simp only [processOrder, hw, hf]
      exact mapGet_isSome_mapSet _ _ _ _ h

theorem processOrdersList_preserves_key (orders : List Order) (s : CTState) (k : String)
    (h : (mapGet k s.copiedWallets).isSome) :
    (mapGet k (processOrdersList s orders).1.copiedWallets).isSome := by
  induction orders generalizing s with
  | nil => simpa [processOrdersList] using h
  | cons o os ih =>
    have hkey := processOrder_preserves_key s o k h
    cases hp : processOrder s o with
    | mk s' e =>
      rw [hp] at hkey
      cases e with
      | none => simpa [processOrdersList, hp] using ih s' hkey
      | some err => simpa [processOrdersList, hp] using hkey

/-- C3: a wallet registered under any letter casing is found again by
`processOrder` for an Order whose trader field uses any other casing of the
same address: both resolve through the lowercased key, the two lookups are
the same lookup, and it still succeeds after the registration's immediate
poll, whatever that poll processed. -/
theorem addWallet_case_insensitive (s : CTState) (walletAddress nickname : String)
    (outcome : FetchOutcome) (o : Order)
    (hcase : jsToLowerCase o.trader = jsToLowerCase walletAddress) :
    (mapGet (jsToLowerCase o.trader)
        (addWallet s walletAddress nickname outcome).1.copiedWallets
      = mapGet (jsToLowerCase walletAddress)
          (addWallet s walletAddress nickname outcome).1.copiedWallets)
      ∧ (mapGet (jsToLowerCase o.trader)
          (addWallet s walletAddress nickname outcome).1.copiedWallets).isSome := by
  rw [hcase]
  refine ⟨rfl, ?_⟩
  have h1 :
      (mapGet (jsToLowerCase walletAddress)
        (mapSet (jsToLowerCase walletAddress)
          { nickname := nickname, address := jsToLowerCase walletAddress, active := true
            lastChecked := s.now, trades := [] } s.copiedWallets)).isSome := by
    rw [mapGet_mapSet_self]
    rfl
  simpa [addWallet, pollWalletOrders] using
    processOrdersList_preserves_key (getWalletOrders outcome) _ (jsToLowerCase walletAddress) h1

/-- Witness for C3 at a concrete input: register `0xAbC`, then process an
order from trader `0xABc`; both lookups agree and succeed. -/
theorem addWallet_case_insensitive_witness :
    (mapGet (jsToLowerCase "0xABc")
        (addWallet sEmpty "0xAbC" "X" (FetchOutcome.response true [])).1.copiedWallets
      = mapGet (jsToLowerCase "0xAbC")
          (addWallet sEmpty "0xAbC" "X" (FetchOutcome.response true [])).1.copiedWallets)
      ∧ (mapGet (jsToLowerCase "0xABc")
          (addWallet sEmpty "0xAbC" "X" (FetchOutcome.response true [])).1.copiedWallets).isSome :=
  addWallet_case_insensitive sEmpty "0xAbC" "X" (FetchOutcome.response true [])
    { exOrder with trader := "0xABc" } (by decide)

/-- A watch record for `0xAbC` that has been paused (`active = false`). -/
def wInactive : WalletData :=
  { nickname := "X", address := "0xabc", active := false, lastChecked := 0, trades := [] }

/-- A state whose only watched wallet is paused. -/
def sInactive : CTState :=
  { copiedWallets := [("0xabc", wInactive)], tradeHistory := [], isMonitoring := true
    testMode := true, stats := exStats, now := 5 }

/-- C8: a push-channel `order_created` event for a registered wallet is
processed and mutates the registry even when that wallet's `active` flag is
false: the new trade is appended to the wallet's list and the global
total-trade counter is incremented — `handleWebSocketMessage` and
`processOrder` never consult the flag. -/
theorem push_ignores_active_flag (s : CTState) (r : RawOrder) (w : WalletData)
    (hw : mapGet (jsToLowerCase (parseOrder r).trader) s.copiedWallets = some w)
    (_hinactive : w.active = false)
    (hnew : w.trades.find? (fun t => t.id = (parseOrder r).id) = none) :
    (mapGet (jsToLowerCase (parseOrder r).trader)
        (handleWebSocketMessage s { type := "order_created", data := r }).1.copiedWallets
      = some { w with trades := w.trades ++ [createTradeRecord s (parseOrder r)] })
      ∧ (handleWebSocketMessage s { type := "order_created", data := r }).1.stats.totalTrades
          = s.stats.totalTrades + 1 := by
  have hmsg : handleWebSocketMessage s { type := "order_created", data := r }
      = processOrder s (parseOrder r) := by
    simp [handleWebSocketMessage]
  rw [hmsg]
  simp only [processOrder, hw, hnew]
  exact ⟨mapGet_mapSet_self _ _ _, trivial⟩

/-- Witness for C8 at a concrete input: the only wallet of `sInactive` is
paused, yet the pushed order is recorded and the counter moves. -/
theorem push_ignores_active_flag_witness :
    (mapGet (jsToLowerCase (parseOrder exRaw).trader)
        (handleWebSocketMessage sInactive { type := "order_created", data := exRaw }).1.copiedWallets
      = some { wInactive with
                 trades := wInactive.trades ++ [createTradeRecord sInactive (parseOrder exRaw)] })
      ∧ (handleWebSocketMessage sInactive
            { type := "order_created", data := exRaw }).1.stats.totalTrades
          = sInactive.stats.totalTrades + 1 :=
  push_ignores_active_flag sInactive exRaw wInactive (by decide) (by decide) (by decide)

/-! ### Polling-sweep lemmas -/

theorem polled_mem_keys (m : List (String × WalletData)) (k : String)
    (h : k ∈ (m.filter (fun p => p.2.active)).map Prod.fst) : k ∈ m.map Prod.fst := by
  obtain ⟨p, hp, rfl⟩ := List.mem_map.mp h
  exact List.mem_map.mpr ⟨p, List.mem_of_mem_filter hp, rfl⟩

theorem notMem_polled_of_inactive (m : List (String × WalletData)) (k : String)
    (v : WalletData) (hnd : (m.map Prod.fst).Nodup) (hv : v.active = false) :
    k ∉ ((mapSet k v m).filter (fun p => p.2.active)).map Prod.fst := by
  induction m with
  | nil => simp [mapSet, hv]
  | cons p rest ih =>
    obtain ⟨k₀, v₀⟩ := p
    rw [List.map_cons, List.nodup_cons] at hnd
    by_cases h0 : k₀ = k
    · subst h0
      intro hmem
      have hstep : mapSet k₀ v ((k₀, v₀) :: rest) = (k₀, v) :: rest := by
        simp [mapSet]
      rw [hstep, List.filter_cons] at hmem
      rw [if_neg (by simp [hv])] at hmem
      exact hnd.1 (polled_mem_keys rest k₀ hmem)
    · intro hmem
      have hstep : mapSet k v ((k₀, v₀) :: rest) = (k₀, v₀) :: mapSet k v rest := by
        simp [mapSet, h0]
      rw [hstep, List.filter_cons] at hmem
      by_cases ha : v₀.active = true
      · rw [if_pos (by simpa using ha), List.map_cons] at hmem
        rcases List.mem_cons.mp hmem with h1 | h1
        · exact h0 h1.symm
        · exact ih hnd.2 h1
      · rw [if_neg (by simpa using ha)] at hmem
        exact ih hnd.2 hmem

theorem walletData_active_eta (w : WalletData) (h : w.active = true) :
    ({ w with active := true } : WalletData) = w := by
  cases w
  simp_all

/-- C7: pausing a wallet removes it from the next polling sweep while
changing nothing but its `active` flag — its record (trade list included)
only flips `active`, other wallets' lookups and the global history and
counters stay as they were — and re-activating an originally active wallet
restores the exact prior state. -/
theorem setWalletActive_pauses_polling (s : CTState) (addr : String) (w : WalletData)
    (hnd : (s.copiedWallets.map Prod.fst).Nodup)
    (hw : mapGet (jsToLowerCase addr) s.copiedWallets = some w)
    (k : String) (hk : k ≠ jsToLowerCase addr) :
    (jsToLowerCase addr) ∉ polledAddresses (setWalletActive s addr false)
      ∧ mapGet (jsToLowerCase addr) (setWalletActive s addr false).copiedWallets
          = some { w with active := false }
      ∧ mapGet k (setWalletActive s addr false).copiedWallets = mapGet k s.copiedWallets
      ∧ (setWalletActive s addr false).tradeHistory = s.tradeHistory
      ∧ (setWalletActive s addr false).stats = s.stats
      ∧ (w.active = true → setWalletActive (setWalletActive s addr false) addr true = s) := by
  have hset : setWalletActive s addr false
      = { s with copiedWallets :=
            mapSet (jsToLowerCase addr) { w with active := false } s.copiedWallets } := by
    simp [setWalletActive, hw]
  refine ⟨?_, ?_, ?_, ?_, ?_, ?_⟩
  · rw [hset]
    simp only [polledAddresses]
    exact notMem_polled_of_inactive s.copiedWallets _ _ hnd rfl
  · rw [hset]
    exact mapGet_mapSet_self _ _ _
  · rw [hset]
    exact mapGet_mapSet_ne _ _ _ _ (fun h => hk h.symm)
  · rw [hset]
  · rw [hset]
  · intro hact
    rw [hset]
    have hget : mapGet (jsToLowerCase addr)
        (mapSet (jsToLowerCase addr) { w with active := false } s.copiedWallets)
        = some { w with active := false } := mapGet_mapSet_self _ _ _
    simp only [setWalletActive, hget]
    rw [mapSet_mapSet_self, walletData_active_eta w hact, mapSet_self _ _ _ hw]

/-- Witness for C7 at a concrete input: pausing the active wallet of `sOne`
drops it from the sweep, and pausing then re-activating is the identity. -/
theorem setWalletActive_pauses_polling_witness :
    (jsToLowerCase "0xAbC") ∉ polledAddresses (setWalletActive sOne "0xAbC" false)
      ∧ setWalletActive (setWalletActive sOne "0xAbC" false) "0xAbC" true = sOne := by
  have h := setWalletActive_pauses_polling sOne "0xAbC" wEmpty (by decide) (by decide)
    "other" (by decide)
  exact ⟨h.1, h.2.2.2.2.2 (by decide)⟩

/-- C1: per wallet, processing an Order id once more — whatever was already
processed — keeps at most one Trade with that id in the owning wallet's
list, and after the same Order is delivered twice (once via poll through
`processOrder`, once via push through `handleWebSocketMessage`) the registry
holds exactly one Trade with that identifier. -/
theorem registry_dedup_per_order_id (s : CTState) (o : Order) (r : RawOrder) (w : WalletData)
    (hw : mapGet (jsToLowerCase o.trader) s.copiedWallets = some w)
    (hpr : parseOrder r = o) :
    (∀ w', countId w.trades o.id ≤ 1 →
        mapGet (jsToLowerCase o.trader) (processOrder s o).1.copiedWallets = some w' →
        countId w'.trades o.id ≤ 1)
      ∧ (countId w.trades o.id = 0 →
          ∃ w₂,
            mapGet (jsToLowerCase o.trader)
                (handleWebSocketMessage (processOrder s o).1
                  { type := "order_created", data := r }).1.copiedWallets = some w₂
              ∧ countId w₂.trades o.id = 1) := by
  constructor
  · intro w' hle hw'
    cases hf : w.trades.find? (fun t => t.id = o.id) with
    | none =>
      have h0 : countId w.trades o.id = 0 := (countId_eq_zero_iff _ _).mpr hf
      simp only [processOrder, hw, hf] at hw'
      rw [mapGet_mapSet_self] at hw'
      obtain rfl := Option.some.inj hw'
      simp [countId_append_single, h0, createTradeRecord]
    | some t =>
      simp only [processOrder, hw, hf] at hw'
      obtain rfl := Option.some.inj hw'
      exact hle
  · intro h0
    have hf : w.trades.find? (fun t => t.id = o.id) = none := (countId_eq_zero_iff _ _).mp h0
    have hmem1 : mapGet (jsToLowerCase o.trader) (processOrder s o).1.copiedWallets
        = some { w with trades := w.trades ++ [createTradeRecord s o] } := by
      simp only [processOrder, hw, hf]
      exact mapGet_mapSet_self _ _ _
    have hcount1 :
        countId ({ w with trades := w.trades ++ [createTradeRecord s o] } : WalletData).trades
            o.id = 1 := by
      simp [countId_append_single, h0, createTradeRecord]
    generalize hgen : (processOrder s o).1 = s1 at hmem1 ⊢
    refine ⟨{ w with trades := w.trades ++ [createTradeRecord s o] }, ?_, hcount1⟩
    have hmsg : handleWebSocketMessage s1 { type := "order_created", data := r }
        = processOrder s1 o := by
      simp [handleWebSocketMessage, hpr]
    rw [hmsg]
    cases hf2 : ({ w with trades := w.trades ++ [createTradeRecord s o] } : WalletData).trades.find?
        (fun t => t.id = o.id) with
    | none =>
      exfalso
      have hz := (countId_eq_zero_iff _ _).mpr hf2
      rw [hcount1] at hz
      exact Nat.one_ne_zero hz
    | some t' =>
      have hred : processOrder s1 o
          = (s1, some (JsError.typeError "this.updateTrade is not a function")) := by
        simp only [processOrder, hmem1, hf2]
      rw [hred]
      exact hmem1

/-- Witness for C1 at a concrete input: order `1` delivered to `sOne` by a
poll and then again by a push leaves exactly one matching Trade. -/
theorem registry_dedup_per_order_id_witness :
    ∃ w₂,
      mapGet (jsToLowerCase exOrder.trader)
          (handleWebSocketMessage (processOrder sOne exOrder).1
            { type := "order_created", data := exRaw }).1.copiedWallets = some w₂
        ∧ countId w₂.trades exOrder.id = 1 :=
  (registry_dedup_per_order_id sOne exOrder exRaw wEmpty (by decide) (by decide)).2 (by decide)

/-- C9: `addWallet` on an already-registered address installs a fresh watch
record — `active = true`, empty trade list, the new nickname — under the
same normalized key (so the old record with its accumulated trade list is no
longer reachable from the registry), while the global trade history is left
exactly as it was.  The registration's immediate poll is taken to return no
orders. -/
theorem addWallet_replaces_record (s : CTState) (addr nickname : String) (old : WalletData)
    (_hold : mapGet (jsToLowerCase addr) s.copiedWallets = some old) :
    (addWallet s addr nickname (FetchOutcome.response true [])).1.tradeHistory = s.tradeHistory
      ∧ mapGet (jsToLowerCase addr)
          (addWallet s addr nickname (FetchOutcome.response true [])).1.copiedWallets
          = some { nickname := nickname, address := jsToLowerCase addr, active := true
                   lastChecked := s.now, trades := [] } := by
  constructor
  · simp [addWallet, pollWalletOrders, getWalletOrders, parseOrders, processOrdersList]
  · simp [addWallet, pollWalletOrders, getWalletOrders, parseOrders, processOrdersList,
      mapGet_mapSet_self]

/-- Witness for C9 at a concrete input: re-registering `0xABC` (same wallet
as `0xabc`, which holds a recorded trade) resets the reachable record and
keeps the trade in the global history. -/
theorem addWallet_replaces_record_witness :
    (addWallet sAfterFirstPoll "0xABC" "Y" (FetchOutcome.response true [])).1.tradeHistory
        = sAfterFirstPoll.tradeHistory
      ∧ mapGet (jsToLowerCase "0xABC")
          (addWallet sAfterFirstPoll "0xABC" "Y" (FetchOutcome.response true [])).1.copiedWallets
          = some { nickname := "Y", address := jsToLowerCase "0xABC", active := true
                   lastChecked := sAfterFirstPoll.now, trades := [] } :=
  addWallet_replaces_record sAfterFirstPoll "0xABC" "Y" wWithOpenTrade (by decide)
